/-
Verification of the country-currency API's reconciliation and upsert pipeline.

The definitions below are a shallow embedding of the Python source:
  * `extract_currency_code`, `calculate_estimated_gdp`, `process_country_data`
    embed src/services.py (Record Reconciler);
  * `upsert_country`, `get_all_countries`, `get_country_by_name`,
    `delete_country_by_name` embed the database operations of src/services.py,
    with the SQL table modelled as a list of rows in insertion order;
  * `refresh_countries` embeds the orchestrator of src/main.py.

Python floats are modelled as rationals, JSON dictionaries as structures of
`Option` fields (a missing key is `none`), and the random multiplier drawn by
`random.uniform(1000, 2000)` is passed in explicitly as a parameter.
-/
import Mathlib

namespace CountryApi

/-- One entry of a raw country's `currencies` list.  `dict.get("code")` can
return `None`, so the code is optional. -/
structure RawCurrency where
  code : Option String
deriving Repr, DecidableEq

/-- A raw country record as returned by the country source: a JSON object
whose fields may each be missing. -/
structure RawCountry where
  name : Option String
  capital : Option String
  region : Option String
  population : Option Int
  flag : Option String
  currencies : Option (List RawCurrency)
deriving Repr, DecidableEq

/-- A reconciled record as built by `process_country_data`, ready for the
upsert store. -/
structure ProcessedCountry where
  name : Option String
  capital : Option String
  region : Option String
  population : Int
  currency_code : Option String
  exchange_rate : Option ℚ
  estimated_gdp : Option ℚ
  flag_url : Option String
deriving Repr, DecidableEq

/-- A stored row of the `countries` table.  `name` is `nullable=False`;
timestamps are modelled as natural numbers. -/
structure CountryDB where
  name : String
  capital : Option String
  region : Option String
  population : Int
  currency_code : Option String
  exchange_rate : Option ℚ
  estimated_gdp : Option ℚ
  flag_url : Option String
  last_refreshed_at : Nat
deriving Repr, DecidableEq

/-- Python truthiness of an optional string: `None` and `""` are falsy. -/
def truthyStr : Option String → Bool
  | none => false
  | some s => !(s == "")

/-- SQL `LOWER` (`func.lower`), the case-folding used throughout the store:
lowercase each character. -/
def sqlLower (s : String) : String := ⟨s.data.map Char.toLower⟩

/-- `extract_currency_code` (src/services.py:72): first currency code of the
`currencies` array, `None` if the array is empty; `first_currency.get("code")`
may itself be `None`. -/
def extract_currency_code : List RawCurrency → Option String
  | [] => none
  | c :: _ => c.code

/-- `calculate_estimated_gdp` (src/services.py:89): `None` when the rate is
`None` or `0`, otherwise `population * multiplier / exchange_rate`.  The
multiplier drawn by `random.uniform(1000, 2000)` is a parameter. -/
def calculate_estimated_gdp (population : Int) (exchange_rate : Option ℚ)
    (multiplier : ℚ) : Option ℚ :=
  match exchange_rate with
  | none => none
  | some r => if r = 0 then none else some ((population * multiplier) / r)

/-- `process_country_data` (src/services.py:108): merge one raw country with
the rate mapping.  The rate mapping (a Python dict) is an association list
looked up by exact key. -/
def process_country_data (country : RawCountry) (rates : List (String × ℚ))
    (multiplier : ℚ) : ProcessedCountry :=
  let population := country.population.getD 0
  let currencies := country.currencies.getD []
  let currency_code := extract_currency_code currencies
  let exchange_rate :=
    if truthyStr currency_code then
      match currency_code with
      | some cc => rates.lookup cc
      | none => none
    else none
  let estimated_gdp := calculate_estimated_gdp population exchange_rate multiplier
  { name := country.name
    capital := country.capital
    region := country.region
    population := population
    currency_code := currency_code
    exchange_rate := exchange_rate
    estimated_gdp := estimated_gdp
    flag_url := country.flag }

/-- `func.lower(CountryDB.name) == func.lower(country_data["name"])`: SQL
comparison against `NULL` never matches. -/
def nameMatches (stored : String) (n : Option String) : Bool :=
  match n with
  | none => false
  | some s => sqlLower stored == sqlLower s

/-- The row written by `upsert_country`: every field comes from the processed
data (the update loop `setattr`s every key, the insert passes every key to the
constructor), and `last_refreshed_at` is set to the time of the write. -/
def rowFromData (n : String) (data : ProcessedCountry) (now : Nat) : CountryDB :=
  { name := n
    capital := data.capital
    region := data.region
    population := data.population
    currency_code := data.currency_code
    exchange_rate := data.exchange_rate
    estimated_gdp := data.estimated_gdp
    flag_url := data.flag_url
    last_refreshed_at := now }

/-- `upsert_country` (src/services.py:155): find the first stored row whose
name matches case-insensitively; overwrite it if found, append a new row
otherwise.  Inserting a `NULL` name violates `nullable=False`, which the
database raises as an error (`none`). -/
def upsert_country (now : Nat) (data : ProcessedCountry) :
    List CountryDB → Option (List CountryDB)
  | [] => data.name.map (fun n => [rowFromData n data now])
  | c :: rest =>
    if nameMatches c.name data.name then
      match data.name with
      | some n => some (rowFromData n data now :: rest)
      | none => none
    else (upsert_country now data rest).map (fun rest2 => c :: rest2)

/-- `get_country_by_name` (src/services.py:232): first row matching the query
name case-insensitively. -/
def get_country_by_name (store : List CountryDB) (name : String) :
    Option CountryDB :=
  store.find? (fun c => sqlLower c.name == sqlLower name)

/-- `delete_country_by_name` (src/services.py:248): delete the row found by
`get_country_by_name`; report whether one existed. -/
def delete_country_by_name : List CountryDB → String → Bool × List CountryDB
  | [], _ => (false, [])
  | c :: rest, q =>
    if sqlLower c.name == sqlLower q then (true, rest)
    else
      let r := delete_country_by_name rest q
      (r.1, c :: r.2)

/-- Comparison used by `ORDER BY estimated_gdp DESC NULLS LAST`. -/
def gdpDescLe (a b : CountryDB) : Bool :=
  match a.estimated_gdp, b.estimated_gdp with
  | some x, some y => y ≤ x
  | some _, none => true
  | none, some _ => false
  | none, none => true

/-- Comparison used by `ORDER BY estimated_gdp ASC NULLS FIRST`. -/
def gdpAscLe (a b : CountryDB) : Bool :=
  match a.estimated_gdp, b.estimated_gdp with
  | some x, some y => x ≤ y
  | some _, none => false
  | none, _ => true

/-- `get_all_countries` (src/services.py:189): optional case-insensitive
region and currency filters (skipped when the parameter is falsy), then an
optional sort; an unrecognized sort token is silently ignored. -/
def get_all_countries (store : List CountryDB) (region currency sort : Option String) :
    List CountryDB :=
  let q := store
  let q := if truthyStr region then
      q.filter (fun c =>
        match c.region, region with
        | some r, some s => sqlLower r == sqlLower s
        | _, _ => false)
    else q
  let q := if truthyStr currency then
      q.filter (fun c =>
        match c.currency_code, currency with
        | some r, some s => sqlLower r == sqlLower s
        | _, _ => false)
    else q
  if truthyStr sort then
    match sort with
    | some "gdp_desc" => q.mergeSort gdpDescLe
    | some "gdp_asc" => q.mergeSort gdpAscLe
    | some "population_desc" => q.mergeSort (fun a b => b.population ≤ a.population)
    | some "population_asc" => q.mergeSort (fun a b => a.population ≤ b.population)
    | some "name_asc" => q.mergeSort (fun a b => decide (a.name ≤ b.name))
    | some "name_desc" => q.mergeSort (fun a b => decide (b.name ≤ a.name))
    | _ => q
  else q

/-- Error conditions surfaced by the refresh endpoint: a 503 when an external
fetch failed or timed out, a 500 for any other uncaught exception. -/
inductive RefreshError where
  | sourceUnavailable
  | internalError
deriving Repr, DecidableEq

/-- Upsert a batch sequentially (`for data in batch: upsert_country(db, data)`).
Each upsert commits on its own, so when one raises the earlier writes stay;
the returned flag records whether the whole batch succeeded. -/
def flushBatch (now : Nat) : List CountryDB → List ProcessedCountry →
    List CountryDB × Bool
  | store, [] => (store, true)
  | store, d :: ds =>
    match upsert_country now d store with
    | some store2 => flushBatch now store2 ds
    | none => (store, false)

/-- The per-country loop of `refresh_countries` (src/main.py:127):
reconcile each record, append it to the batch, flush the batch once it has 10
entries; an exception during the flush is caught and the loop continues with
the batch kept as-is.  `i` indexes the random multiplier drawn for each
record.  Returns the store, the processed count, and the leftover batch. -/
def refreshLoop (now : Nat) (rates : List (String × ℚ)) (mults : Nat → ℚ) :
    List RawCountry → Nat → List ProcessedCountry → Nat → List CountryDB →
    List CountryDB × Nat × List ProcessedCountry
  | [], _, batch, count, store => (store, count, batch)
  | c :: cs, i, batch, count, store =>
    let d := process_country_data c rates (mults i)
    let batch2 := batch ++ [d]
    if batch2.length ≥ 10 then
      let fl := flushBatch now store batch2
      if fl.2 then refreshLoop now rates mults cs (i + 1) [] (count + batch2.length) fl.1
      else refreshLoop now rates mults cs (i + 1) batch2 count fl.1
    else refreshLoop now rates mults cs (i + 1) batch2 count store

/-- `refresh_countries` (src/main.py:100): if either fetch failed, the 503 is
re-raised and nothing is written.  Otherwise only the first 50 fetched records
are iterated (`countries_data[:50]`), and the leftover batch is flushed outside
the try, so a failure there aborts the call with a 500.  Returns the resulting
store and either an error or the processed count. -/
def refresh_countries (now : Nat) (mults : Nat → ℚ)
    (countriesResult : Except RefreshError (List RawCountry))
    (ratesResult : Except RefreshError (List (String × ℚ)))
    (store : List CountryDB) : List CountryDB × Except RefreshError Nat :=
  match countriesResult with
  | .error e => (store, .error e)
  | .ok countries =>
    match ratesResult with
    | .error e => (store, .error e)
    | .ok rates =>
      let r := refreshLoop now rates mults (countries.take 50) 0 [] 0 store
      match r.2.2 with
      | [] => (r.1, .ok r.2.1)
      | batch =>
        let fl := flushBatch now r.1 batch
        if fl.2 then (fl.1, .ok (r.2.1 + batch.length))
        else (fl.1, .error .internalError)

/-- The case-folded names of the stored rows, in storage order. -/
def foldedNames (store : List CountryDB) : List String :=
  store.map (fun c => sqlLower c.name)

/-- The store invariant: at most one row per case-folded name. -/
def NamesUnique (store : List CountryDB) : Prop :=
  (foldedNames store).Nodup

/-- One upsert operation as performed by the orchestrator: a failed upsert is
caught and leaves the store unchanged. -/
def upsertStep (store : List CountryDB) (op : Nat × ProcessedCountry) :
    List CountryDB :=
  (upsert_country op.1 op.2 store).getD store

/-! ### Concrete records used as witnesses and counterexamples -/

/-- A reconciled record for Nigeria, lower-case name. -/
def nigeriaData : ProcessedCountry :=
  { name := some "nigeria", capital := some "Abuja", region := some "Africa",
    population := 200, currency_code := some "NGN", exchange_rate := some 400,
    estimated_gdp := some 750, flag_url := none }

/-- The same country re-fetched with an upper-case name and a changed capital. -/
def capsData : ProcessedCountry :=
  { nigeriaData with name := some "NIGERIA", capital := some "ABJ" }

/-- The row stored after upserting `nigeriaData` at time 1. -/
def nigeriaRow : CountryDB := rowFromData "nigeria" nigeriaData 1

/-- A raw country whose currency list is nonempty but whose first entry
carries no `code` key. -/
def noCodeRaw : RawCountry :=
  { name := some "X", capital := none, region := none,
    population := some 5, flag := none, currencies := some [{ code := none }] }

/-- The Wakanda record of the spec's end-to-end scenario. -/
def wakandaRaw : RawCountry :=
  { name := some "Wakanda", capital := none, region := none,
    population := some 1000, flag := none,
    currencies := some [{ code := some "WAK" }] }

/-- A minimal valid raw record with the given name. -/
def rawNamed (n : String) : RawCountry :=
  { name := some n, capital := none, region := none,
    population := some 0, flag := none, currencies := none }

/-- 51 valid raw records with pairwise distinct names c0 .. c50. -/
def fiftyOne : List RawCountry :=
  (List.range 51).map (fun i => rawNamed ("c" ++ toString i))

/-! ### The reconciler (C1, C9) -/

/-- Specification of `calculate_estimated_gdp`: absent exactly when the rate
is absent or zero, otherwise `population * multiplier / rate`. -/
theorem calculate_estimated_gdp_spec (pop : Int) (er : Option ℚ) (m : ℚ) :
    (calculate_estimated_gdp pop er m = none ↔ er = none ∨ er = some 0) ∧
    ∀ r : ℚ, er = some r → r ≠ 0 →
      calculate_estimated_gdp pop er m = some ((pop : ℚ) * m / r) := by
  constructor
  · cases er with
    | none => simp [calculate_estimated_gdp]
    | some r =>
      by_cases h : r = 0 <;> simp [calculate_estimated_gdp, h]
  · intro r hr hne
    subst hr
    simp [calculate_estimated_gdp, hne]

/-- The `estimated_gdp` field of a reconciled record is
`calculate_estimated_gdp` applied to its own `population` and
`exchange_rate` fields. -/
theorem process_estimated_gdp_eq (country : RawCountry)
    (rates : List (String × ℚ)) (m : ℚ) :
    (process_country_data country rates m).estimated_gdp =
      calculate_estimated_gdp (process_country_data country rates m).population
        (process_country_data country rates m).exchange_rate m := rfl

/-- C1: for every reconciled country record, `estimated_gdp` is absent iff
`exchange_rate` is absent or exactly zero; otherwise it equals
`population * m / exchange_rate` for some multiplier `m` with
`1000 ≤ m < 2000`, for any population value. -/
theorem estimated_gdp_absent_iff_rate_absent_or_zero (country : RawCountry)
    (rates : List (String × ℚ)) (mult : ℚ)
    (hlo : 1000 ≤ mult) (hhi : mult < 2000) :
    ((process_country_data country rates mult).estimated_gdp = none ↔
      (process_country_data country rates mult).exchange_rate = none ∨
      (process_country_data country rates mult).exchange_rate = some 0) ∧
    (∀ r : ℚ, (process_country_data country rates mult).exchange_rate = some r →
      r ≠ 0 → ∃ m : ℚ, 1000 ≤ m ∧ m < 2000 ∧
        (process_country_data country rates mult).estimated_gdp =
          some (((process_country_data country rates mult).population : ℚ) * m / r)) := by
  have hspec := calculate_estimated_gdp_spec
    (process_country_data country rates mult).population
    (process_country_data country rates mult).exchange_rate mult
  refine ⟨?_, ?_⟩
  · rw [process_estimated_gdp_eq]
    exact hspec.1
  · intro r hr hne
    refine ⟨mult, hlo, hhi, ?_⟩
    rw [process_estimated_gdp_eq]
    exact hspec.2 r hr hne

/-- Witness for C1 at the spec's Wakanda scenario: population 1000, rate 2,
multiplier 1500, yielding an estimated GDP of 750000. -/
theorem estimated_gdp_absent_iff_rate_absent_or_zero_witness :
    (1000 : ℚ) ≤ 1500 ∧ (1500 : ℚ) < 2000 ∧
    ((process_country_data wakandaRaw [("WAK", 2)] 1500).estimated_gdp = none ↔
      (process_country_data wakandaRaw [("WAK", 2)] 1500).exchange_rate = none ∨
      (process_country_data wakandaRaw [("WAK", 2)] 1500).exchange_rate = some 0) ∧
    (∀ r : ℚ, (process_country_data wakandaRaw [("WAK", 2)] 1500).exchange_rate = some r →
      r ≠ 0 → ∃ m : ℚ, 1000 ≤ m ∧ m < 2000 ∧
        (process_country_data wakandaRaw [("WAK", 2)] 1500).estimated_gdp =
          some (((process_country_data wakandaRaw [("WAK", 2)] 1500).population : ℚ) * m / r)) := by
  refine ⟨by norm_num, by norm_num, ?_⟩
  exact estimated_gdp_absent_iff_rate_absent_or_zero wakandaRaw [("WAK", 2)] 1500
    (by norm_num) (by norm_num)

/-- Counterexample to C9 as stated: a record whose currency list is nonempty
but whose first entry has no code gets an absent `currency_code`, so absence
is not equivalent to the list being empty or missing. -/
theorem currency_code_absent_on_nonempty_list :
    (process_country_data noCodeRaw [] 1500).currency_code = none ∧
    noCodeRaw.currencies.getD [] ≠ [] := by
  exact ⟨rfl, by decide⟩

/-- C9 amended: the reconciled `currency_code` equals the (optional) `code`
field of the first entry of the record's currency list; it is absent exactly
when the list is empty or missing, or the first entry itself has no code. -/
theorem currency_code_eq_first_entry_code (country : RawCountry)
    (rates : List (String × ℚ)) (m : ℚ) :
    (process_country_data country rates m).currency_code =
      ((country.currencies.getD []).head?.bind fun c => c.code) := by
  have h : (process_country_data country rates m).currency_code =
      extract_currency_code (country.currencies.getD []) := rfl
  rw [h]
  cases country.currencies.getD [] with
  | nil => rfl
  | cons c rest => rfl

/-- C10: an empty-string region or currency filter is falsy and is treated
exactly like an absent filter; with both filters empty and no sort, every
stored record is returned unchanged. -/
theorem empty_string_filter_is_no_filter :
    (∀ (store : List CountryDB) (currency sort : Option String),
      get_all_countries store (some "") currency sort =
        get_all_countries store none currency sort) ∧
    (∀ (store : List CountryDB) (region sort : Option String),
      get_all_countries store region (some "") sort =
        get_all_countries store region none sort) ∧
    (∀ store : List CountryDB,
      get_all_countries store (some "") (some "") none = store) := by
  refine ⟨fun store currency sort => rfl, fun store region sort => rfl,
    fun store => rfl⟩

/-! ### Deletion (C8) -/

/-- C8: deleting a name that matches no stored record case-insensitively
returns `false` and leaves the store exactly as it was. -/
theorem delete_missing_name_noop (store : List CountryDB) (q : String)
    (h : ∀ c ∈ store, sqlLower c.name ≠ sqlLower q) :
    delete_country_by_name store q = (false, store) := by
  induction store with
  | nil => rfl
  | cons c rest ih =>
    have hc : (sqlLower c.name == sqlLower q) = false := by
      simpa using h c (List.mem_cons_self c rest)
    have hrest := ih (fun d hd => h d (List.mem_cons_of_mem c hd))
    simp [delete_country_by_name, hc, hrest]

/-- Witness for C8: deleting "ghana" from a store holding only Nigeria. -/
theorem delete_missing_name_noop_witness :
    (∀ c ∈ [nigeriaRow], sqlLower c.name ≠ sqlLower "ghana") ∧
    delete_country_by_name [nigeriaRow] "ghana" = (false, [nigeriaRow]) := by
  exact ⟨by decide, delete_missing_name_noop [nigeriaRow] "ghana" (by decide)⟩

/-! ### Lookup by name (C6) -/

/-- `foldedNames` distributes over cons. -/
theorem foldedNames_cons (c : CountryDB) (rest : List CountryDB) :
    foldedNames (c :: rest) = sqlLower c.name :: foldedNames rest := rfl

/-- C6: in a store whose case-folded names are unique, looking up any casing
variant of a stored record's name returns that record. -/
theorem get_country_by_name_finds (store : List CountryDB) (r : CountryDB)
    (q : String) (hu : NamesUnique store) (hr : r ∈ store)
    (hq : sqlLower q = sqlLower r.name) :
    get_country_by_name store q = some r := by
  induction store with
  | nil => cases hr
  | cons c rest ih =>
    rw [NamesUnique, foldedNames_cons, List.nodup_cons] at hu
    rcases List.mem_cons.mp hr with heq | hmem
    · subst heq
      have hc : (sqlLower r.name == sqlLower q) = true := by simp [hq]
      simp [get_country_by_name, List.find?_cons, hc]
    · have hne : (sqlLower c.name == sqlLower q) = false := by
        simp only [beq_eq_false_iff_ne, ne_eq]
        intro heq
        apply hu.1
        rw [heq, hq]
        exact List.mem_map_of_mem (fun d => sqlLower d.name) hmem
      have hrest := ih hu.2 hmem
      simpa [get_country_by_name, List.find?_cons, hne] using hrest

/-- Witness for C6: after upserting a record named "nigeria" into an empty
store, `getByName "Nigeria"` returns the stored record. -/
theorem get_country_by_name_finds_witness :
    NamesUnique (upsertStep [] (1, nigeriaData)) ∧
    nigeriaRow ∈ upsertStep [] (1, nigeriaData) ∧
    sqlLower "Nigeria" = sqlLower nigeriaRow.name ∧
    get_country_by_name (upsertStep [] (1, nigeriaData)) "Nigeria" =
      some nigeriaRow := by
  refine ⟨by unfold NamesUnique; decide, by decide, by decide, ?_⟩
  exact get_country_by_name_finds (upsertStep [] (1, nigeriaData)) nigeriaRow
    "Nigeria" (by unfold NamesUnique; decide) (by decide) (by decide)

/-! ### Upsert update semantics (C4) -/

/-- Counterexample to C4 as stated: upserting the re-fetched record named
"NIGERIA" over the stored "nigeria" row overwrites the stored name too — the
identity key's stored casing is not left unchanged. -/
theorem upsert_overwrites_stored_name :
    upsert_country 2 capsData [nigeriaRow] =
      some [rowFromData "NIGERIA" capsData 2] ∧
    (rowFromData "NIGERIA" capsData 2).name ≠ nigeriaRow.name := by
  exact ⟨rfl, by decide⟩

/-- C4 amended: when the store's first case-insensitive match for the incoming
record is `r`, the upsert replaces `r` by a row that takes every field from
the incoming record — its name included, which can change the stored casing —
with `last_refreshed_at` set to the time of the write; all other rows are
untouched. -/
theorem upsert_updates_first_match (now : Nat) (data : ProcessedCountry)
    (n : String) (pre post : List CountryDB) (r : CountryDB)
    (hn : data.name = some n)
    (hpre : ∀ c ∈ pre, nameMatches c.name data.name = false)
    (hr : nameMatches r.name data.name = true) :
    upsert_country now data (pre ++ r :: post) =
      some (pre ++ rowFromData n data now :: post) ∧
    (rowFromData n data now).name = n ∧
    (rowFromData n data now).last_refreshed_at = now := by
  refine ⟨?_, rfl, rfl⟩
  induction pre with
  | nil =>
    rw [hn] at hr
    simp [upsert_country, hn, hr]
  | cons c cs ih =>
    have hc := hpre c (List.mem_cons_self c cs)
    have hcs := ih (fun d hd => hpre d (List.mem_cons_of_mem c hd))
    simp [upsert_country, hc, hcs]

/-- Witness for C4 (amended) at the Nigeria records. -/
theorem upsert_updates_first_match_witness :
    capsData.name = some "NIGERIA" ∧
    nameMatches nigeriaRow.name capsData.name = true ∧
    (upsert_country 2 capsData ([] ++ nigeriaRow :: []) =
      some ([] ++ rowFromData "NIGERIA" capsData 2 :: []) ∧
    (rowFromData "NIGERIA" capsData 2).name = "NIGERIA" ∧
    (rowFromData "NIGERIA" capsData 2).last_refreshed_at = 2) := by
  refine ⟨rfl, by decide, ?_⟩
  exact upsert_updates_first_match 2 capsData "NIGERIA" [] [] nigeriaRow rfl
    (by intro c hc; cases hc) (by decide)

/-! ### The case-folded-name uniqueness invariant (C3) -/

/-- A successful upsert with incoming name `n` adds no case-folded name other
than `sqlLower n`: every folded name of the result was already stored or is
the incoming one. -/
theorem mem_foldedNames_of_upsert {now : Nat} {data : ProcessedCountry}
    {store store2 : List CountryDB} {x : String}
    (h : upsert_country now data store = some store2)
    (hx : x ∈ foldedNames store2) :
    x ∈ foldedNames store ∨ ∃ n, data.name = some n ∧ x = sqlLower n := by
  induction store generalizing store2 with
  | nil =>
    cases hd : data.name with
    | none => rw [upsert_country, hd] at h; cases h
    | some n =>
      rw [upsert_country, hd] at h
      cases h
      right
      refine ⟨n, rfl, ?_⟩
      simpa [foldedNames, rowFromData] using hx
  | cons c rest ih =>
    by_cases hm : nameMatches c.name data.name = true
    · cases hd : data.name with
      | none => rw [hd] at hm; cases hm
      | some n =>
        rw [upsert_country, if_pos hm, hd] at h
        cases h
        rw [foldedNames_cons] at hx
        rcases List.mem_cons.mp hx with hx | hx
        · right; exact ⟨n, rfl, hx⟩
        · left
          rw [foldedNames_cons]
          exact List.mem_cons_of_mem _ hx
    · rw [upsert_country, if_neg hm] at h
      cases hrest : upsert_country now data rest with
      | none => rw [hrest] at h; cases h
      | some rest2 =>
        rw [hrest] at h
        cases h
        rw [foldedNames_cons] at hx
        rcases List.mem_cons.mp hx with hx | hx
        · left; rw [foldedNames_cons, hx]; exact List.mem_cons_self _ _
        · rcases ih hrest hx with hx2 | hx2
          · left; rw [foldedNames_cons]; exact List.mem_cons_of_mem _ hx2
          · right; exact hx2

/-- A single successful upsert preserves the uniqueness invariant. -/
theorem upsert_preserves_names_unique {now : Nat} {data : ProcessedCountry}
    {store store2 : List CountryDB}
    (h : upsert_country now data store = some store2)
    (hu : NamesUnique store) : NamesUnique store2 := by
  induction store generalizing store2 with
  | nil =>
    cases hd : data.name with
    | none => rw [upsert_country, hd] at h; cases h
    | some n =>
      rw [upsert_country, hd] at h
      cases h
      simp [NamesUnique, foldedNames]
  | cons c rest ih =>
    rw [NamesUnique, foldedNames_cons, List.nodup_cons] at hu
    by_cases hm : nameMatches c.name data.name = true
    · cases hd : data.name with
      | none => rw [hd] at hm; cases hm
      | some n =>
        rw [upsert_country, if_pos hm, hd] at h
        cases h
        have hfold : sqlLower n = sqlLower c.name := by
          rw [hd] at hm
          have := of_decide_eq_true (by simpa [nameMatches] using hm)
          exact this.symm
        rw [NamesUnique, foldedNames_cons, List.nodup_cons]
        refine ⟨?_, hu.2⟩
        show sqlLower (rowFromData n data now).name ∉ foldedNames rest
        rw [show (rowFromData n data now).name = n from rfl, hfold]
        exact hu.1
    · rw [upsert_country, if_neg hm] at h
      cases hrest : upsert_country now data rest with
      | none => rw [hrest] at h; cases h
      | some rest2 =>
        rw [hrest] at h
        cases h
        rw [NamesUnique, foldedNames_cons, List.nodup_cons]
        refine ⟨?_, ih hrest hu.2⟩
        intro hmem
        rcases mem_foldedNames_of_upsert hrest hmem with hin | ⟨n, hd, hx⟩
        · exact hu.1 hin
        · apply hm
          rw [hd]
          show (sqlLower c.name == sqlLower n) = true
          simp [hx]

/-- C3: starting from a store with no two rows sharing a case-folded name,
any sequence of orchestrator upserts (a failing upsert leaves the store
unchanged) never produces two rows whose names agree after case-folding. -/
theorem upsert_sequence_preserves_names_unique (store : List CountryDB)
    (hu : NamesUnique store) (ops : List (Nat × ProcessedCountry)) :
    NamesUnique (ops.foldl upsertStep store) := by
  induction ops generalizing store with
  | nil => exact hu
  | cons op rest ih =>
    rw [List.foldl_cons]
    apply ih
    unfold upsertStep
    cases h : upsert_country op.1 op.2 store with
    | none => exact hu
    | some s2 => exact upsert_preserves_names_unique h hu

/-- Witness for C3: upserting Nigeria twice (second time with upper-case
name) into an empty store keeps the invariant. -/
theorem upsert_sequence_preserves_names_unique_witness :
    NamesUnique ([] : List CountryDB) ∧
    NamesUnique ([(1, nigeriaData), (2, capsData)].foldl upsertStep []) := by
  refine ⟨by unfold NamesUnique; decide, ?_⟩
  exact upsert_sequence_preserves_names_unique [] (by unfold NamesUnique; decide)
    [(1, nigeriaData), (2, capsData)]

/-! ### Sorting by estimated GDP (C7) -/

/-- `gdpDescLe` is transitive. -/
theorem gdpDescLe_trans (a b c : CountryDB) :
    gdpDescLe a b → gdpDescLe b c → gdpDescLe a c := by
  unfold gdpDescLe
  cases a.estimated_gdp <;> cases b.estimated_gdp <;> cases c.estimated_gdp <;> simp
  exact fun h1 h2 => le_trans h2 h1

/-- `gdpDescLe` is total. -/
theorem gdpDescLe_total (a b : CountryDB) : gdpDescLe a b || gdpDescLe b a := by
  unfold gdpDescLe
  cases a.estimated_gdp <;> cases b.estimated_gdp <;> simp
  exact le_total _ _

/-- Order relation asserted by C7: a row may precede another only if, whenever
the later row has a present `estimated_gdp`, the earlier row has a present one
at least as large.  Under this relation no absent-GDP row precedes a
present-GDP row, and present values are descending. -/
def gdpOrdered (a b : CountryDB) : Prop :=
  ∀ y : ℚ, b.estimated_gdp = some y →
    ∃ x : ℚ, a.estimated_gdp = some x ∧ y ≤ x

/-- C7: listing with `sort="gdp_desc"` returns a permutation of the store in
which every row with an absent `estimated_gdp` comes after every row with a
present one, and rows with present values appear in descending order. -/
theorem gdp_desc_sort_spec (store : List CountryDB) :
    (get_all_countries store none none (some "gdp_desc")).Perm store ∧
    (get_all_countries store none none (some "gdp_desc")).Pairwise gdpOrdered := by
  have hg : get_all_countries store none none (some "gdp_desc") =
      store.mergeSort gdpDescLe := rfl
  constructor
  · rw [hg]
    exact List.mergeSort_perm store gdpDescLe
  · rw [hg]
    have hs := List.sorted_mergeSort gdpDescLe_trans gdpDescLe_total store
    refine hs.imp ?_
    intro a b hab y hby
    cases hax : a.estimated_gdp with
    | none =>
      rw [gdpDescLe, hax, hby] at hab
      cases hab
    | some x =>
      refine ⟨x, rfl, ?_⟩
      rw [gdpDescLe, hax, hby] at hab
      exact of_decide_eq_true hab

/-! ### Refresh failure semantics (C5) -/

/-- C5: when the country-source fetch fails or times out (the fetcher
surfaces both as the same 503 `SourceUnavailable` condition), the refresh
returns that condition and the store is exactly as before — zero upserts. -/
theorem refresh_fetch_failure_is_noop (now : Nat) (mults : Nat → ℚ)
    (ratesResult : Except RefreshError (List (String × ℚ)))
    (store : List CountryDB) :
    refresh_countries now mults (Except.error RefreshError.sourceUnavailable)
      ratesResult store =
      (store, Except.error RefreshError.sourceUnavailable) := rfl

/-! ### The refresh loop processes only the first 50 records (C2) -/

/-- C2 evidence: a fetched list of 51 valid, distinct countries yields a
processed count of 50, and the 51st country (name "c50") is never upserted —
`countries_data[:50]` caps the loop even though the adjacent comment says
"Process ALL countries". -/
theorem refresh_drops_fifty_first_record :
    fiftyOne.length = 51 ∧
    (refresh_countries 0 (fun _ => 1500) (Except.ok fiftyOne)
      (Except.ok []) []).2 = Except.ok 50 ∧
    get_country_by_name
      (refresh_countries 0 (fun _ => 1500) (Except.ok fiftyOne)
        (Except.ok []) []).1 "c50" = none := by
  exact ⟨rfl, rfl, rfl⟩

end CountryApi
